import Mathlib

/-!
Shallow embedding of `lib/watermark.js` (meteor-image-watermark).

JS machine-level conventions used throughout:
* a JS string is a sequence of UTF-16 code units, modelled as `List Nat`
  (each unit below 2^16); `charCodeAt` is positional lookup;
* a `Uint8Array` store truncates its operand modulo 2^8;
* platform primitives (canvas `clearRect`/`toDataURL`, `window.atob`,
  `document.createElement`, `FileReader`, `Promise.all`) are embedded from
  their documented platform semantics, since they are not repository code.
-/

/-- A JavaScript string: a finite sequence of UTF-16 code units. -/
structure JSString where
  units : List Nat
deriving DecidableEq, Repr

/-- The JS `s.length`: the number of UTF-16 code units. -/
def JSString.len (s : JSString) : Nat := s.units.length

/-- The JS `s.charCodeAt(i)`: the `i`-th UTF-16 code unit (we only use it in range). -/
def JSString.charCodeAt (s : JSString) (i : Nat) : Nat := s.units.getD i 0

/-- Embedding of `uint8(data)` from the source: a `for` loop over
`0 ≤ i < data.length` storing `data.charCodeAt(i)` into a fresh
`Uint8Array(length)`; the `Uint8Array` element store truncates modulo 2^8. -/
def uint8 (data : JSString) : List Nat :=
  (List.range data.len).map (fun i => data.charCodeAt i % 256)

/-- A single painted pixel of a canvas: coordinates and a color value. -/
structure Pixel where
  x : Nat
  y : Nat
  color : Nat
deriving DecidableEq, Repr

/-- A canvas element: identity (JS reference identity), `width`, `height`,
and its drawn content as the set of painted pixels. -/
structure Canvas where
  id : Nat
  width : Nat
  height : Nat
  content : List Pixel
deriving DecidableEq, Repr

/-- Embedding of `context.clearRect(0, 0, canvas.width, canvas.height)`: erases every
pixel inside the rectangle `[0, width) × [0, height)`; size is unchanged. -/
def clearCanvas (c : Canvas) : Canvas :=
  { c with content := c.content.filter (fun px => !(px.x < c.width && px.y < c.height)) }

/-- The state of the `CanvasPool` closure: the `canvases` array plus a supply
of fresh identities standing for `document.createElement('canvas')`. -/
structure PoolState where
  canvases : List Canvas
  nextId : Nat
deriving DecidableEq, Repr

/-- Embedding of `CanvasPool.release(canvas)`: clear the canvas with
`clearRect` over its full bounds, then `canvases.push(canvas)`. -/
def poolRelease (p : PoolState) (c : Canvas) : PoolState :=
  { p with canvases := p.canvases ++ [clearCanvas c] }

/-- Embedding of `CanvasPool.clear()`: `canvases.splice(0, canvases.length)`
drops every available canvas.  `watermark.destroy()` calls this on the
shared pool. -/
def clearPool (p : PoolState) : PoolState := { p with canvases := [] }

/-- Embedding of `document.createElement('canvas')`: a fresh canvas with the platform
default size 300×150 and no drawn content. -/
def freshCanvas (id : Nat) : Canvas :=
  { id := id, width := 300, height := 150, content := [] }

/-- Embedding of `CanvasPool.pop()`: if `length === 0` push a freshly created
canvas, then `canvases.pop()` (take from the back; `none` never occurs after
the conditional push). -/
def popPool (p : PoolState) : Option Canvas × PoolState :=
  let p1 :=
    if p.canvases.length = 0 then
      { canvases := p.canvases ++ [freshCanvas p.nextId], nextId := p.nextId + 1 }
    else p
  (p1.canvases.getLast?, { p1 with canvases := p1.canvases.dropLast })

/-- A decoded image object; identified by the value it decodes to. -/
abbrev Img := Nat

/-- A JavaScript value passed as a resource: a string locator, a `File`
handle, an `Image` instance, or an `Array` (the shape the chain `load`
method actually hands to the loader). -/
inductive JSVal where
  | str (s : String)
  | file (id : Nat)
  | image (img : Img)
  | array (elems : List JSVal)

/-- Which of the three loader functions `getLoader` selects. -/
inductive Loader where
  | urlLoader
  | identityLoader
  | fileLoader
deriving DecidableEq, Repr

/-- Embedding of `getLoader(resource)`: `typeof resource === 'string'`
selects `loadUrl`; `resource instanceof Image` selects `identity`;
everything else falls through to `loadFile`. -/
def getLoader : JSVal → Loader
  | .str _ => .urlLoader
  | .image _ => .identityLoader
  | _ => .fileLoader

/-- The resource shapes the specification recognizes: a string locator, a
file handle, or a decoded image.  Stated from the spec's words for
comparison with the dispatch the code performs. -/
def specRecognizedShape : JSVal → Bool
  | .str _ => true
  | .file _ => true
  | .image _ => true
  | .array _ => false

/-- Errors a load can surface with: the platform `TypeError` thrown by
`FileReader.readAsDataURL` on a non-Blob argument, and the
`ReferenceError` thrown on reading an unbound identifier. -/
inductive JSErr where
  | typeError
  | referenceError (name : String)
deriving DecidableEq, Repr

/-- A settled-or-pending promise: the (event-loop) time at which it
settles and the value or error it settles with. -/
structure Prom (α : Type) where
  time : Nat
  val : Except JSErr α
deriving Repr

/-- The platform environment the loads run against: what image each url or
data-url decodes to, what data-url `FileReader.readAsDataURL` produces for
each file, and the real-world completion time of each asynchronous load. -/
structure Env where
  decodeUrl : String → Img
  fileDataUrl : Nat → String
  urlTime : String → Nat
  fileTime : Nat → Nat

/-- Embedding of `loadFile(file)`: read the file with
`FileReader.readAsDataURL`, then build an image from the resulting data
url (`setAndResolve`).  On a value that is not a file handle the platform
`readAsDataURL` throws a `TypeError` inside the promise executor, which
rejects the promise. -/
def loadFileP (env : Env) : JSVal → Prom Img
  | .file f => ⟨env.fileTime f, .ok (env.decodeUrl (env.fileDataUrl f))⟩
  | _ => ⟨0, .error .typeError⟩

/-- Embedding of one iteration of `load`'s loop: dispatch the resource via
`getLoader` and run the selected loader (`loadUrl` / `identity` /
`loadFile`).  `identity` settles immediately with the resource itself. -/
def loadResource (env : Env) : JSVal → Prom Img
  | .str s => ⟨env.urlTime s, .ok (env.decodeUrl s)⟩
  | .image i => ⟨0, .ok i⟩
  | v => loadFileP env v

/-- The aggregation `Promise.all` performs: the list of values in input
order if every constituent resolves, and a rejection if any rejects. -/
def collectVals {α : Type} : List (Prom α) → Except JSErr (List α)
  | [] => .ok []
  | p :: ps =>
    match p.val with
    | .error e => .error e
    | .ok v =>
      match collectVals ps with
      | .error e => .error e
      | .ok vs => .ok (v :: vs)

/-- A `Promise.all(promises)` aggregate settles once the last constituent has. -/
def maxTime {α : Type} (ps : List (Prom α)) : Nat :=
  ps.foldl (fun t p => max t p.time) 0

/-- Platform semantics of `Promise.all`: input-order value aggregation
regardless of the order in which the constituents complete. -/
def promiseAll {α : Type} (ps : List (Prom α)) : Prom (List α) :=
  ⟨maxTime ps, collectVals ps⟩

/-- Embedding of `load(resources, init)`: build one promise per resource
via `getLoader` dispatch and aggregate them with `Promise.all`.
The `init` argument does not affect the resolved values (it only receives
the image object before its `src` is set); its calling discipline is
modelled separately by `loadResourceTrace`. -/
def loadP (env : Env) (resources : List JSVal) : Prom (List Img) :=
  promiseAll (resources.map (loadResource env))

/-- The image a valid resource resolves to (the per-kind readback of
`loadResource`, used to state order preservation). -/
def imageOf (env : Env) : JSVal → Img
  | .str s => env.decodeUrl s
  | .image i => i
  | .file f => env.decodeUrl (env.fileDataUrl f)
  | .array _ => 0

/-- The resolved value of a pipeline, as the chain `load` method sees it:
a JS `Array` whose elements are the resolved `Image` objects. -/
def imagesAsJSVal (imgs : List Img) : JSVal :=
  .array (imgs.map .image)

/-- Embedding of the chain method `load(resources, init)`'s derived
promise: `this.then(resource => load([resource].concat(resources), init))`.
The previously resolved value is wrapped as a single resource in front of
the new ones; a rejection of the previous promise propagates. -/
def chainLoadPromise (env : Env) (prev : Prom (List Img)) (more : List JSVal) :
    Prom (List Img) :=
  match prev.val with
  | .error e => ⟨prev.time, .error e⟩
  | .ok imgs =>
    let p := loadP env (imagesAsJSVal imgs :: more)
    ⟨max prev.time p.time, p.val⟩

/-- The identifiers bound at the top level of `lib/watermark.js` (the only
module-scope bindings the chain methods can resolve against). -/
def moduleBindings : List String :=
  ["WatermarkConfig", "url", "sequence", "identity", "split", "decode", "uint8",
   "mapToBlob", "mapToDataUrl", "CanvasPool", "shared", "setAndResolve", "getLoader",
   "load", "loadUrl", "loadFile", "createImage", "drawImage", "imageToCanvas",
   "mapToCanvas", "extend", "clone", "atPosImage", "image", "atPosText", "text",
   "result", "defaults", "mergeOptions", "release"]

/-- Reading an identifier in the module scope: an unbound identifier
throws a `ReferenceError`. -/
def resolveIdent (n : String) : Except JSErr Unit :=
  if moduleBindings.contains n then .ok () else .error (.referenceError n)

/-- The state of one pipeline object: the `resources` and options it
carries forward and its pending promise. -/
structure Pipeline where
  resources : List JSVal
  initIsFn : Bool
  prom : Prom (List Img)

/-- The `return Watermark.watermark(resources, opts, promise)` statement
every chain method ends with: it must first resolve the identifier
`Watermark`; the success branch (the recursive constructor call, carrying
the resources and options forward) is unreachable because the file never
binds `Watermark`. -/
def derivedReturn (res : List JSVal) (ini : Bool) : Except JSErr (List JSVal × Bool) :=
  match resolveIdent "Watermark" with
  | .error e => .error e
  | .ok _ => .ok (res, ini)

/-- Embedding of `dataUrl(draw)`: builds the derived promise, then returns via
`Watermark.watermark`.  The pair is (outcome, state of `this` after the
call); the body performs no assignment to `this`. -/
def dataUrlOp (p : Pipeline) : Except JSErr (List JSVal × Bool) × Pipeline :=
  (derivedReturn p.resources p.initIsFn, p)

/-- Chain `load(resources, init)`: note the parameter shadows the carried
resource list, so the would-be derived pipeline receives only `more`. -/
def loadOp (p : Pipeline) (more : List JSVal) : Except JSErr (List JSVal × Bool) × Pipeline :=
  (derivedReturn more p.initIsFn, p)

/-- Embedding of `render()`. -/
def renderOp (p : Pipeline) : Except JSErr (List JSVal × Bool) × Pipeline :=
  (derivedReturn p.resources p.initIsFn, p)

/-- Embedding of `blob(draw)`: calls `this.dataUrl(draw)` first, so it surfaces the
same outcome `dataUrl` does. -/
def blobOp (p : Pipeline) : Except JSErr (List JSVal × Bool) × Pipeline :=
  (derivedReturn p.resources p.initIsFn, p)

/-- Embedding of `image(draw)`: calls `this.dataUrl(draw)` first. -/
def imageOp (p : Pipeline) : Except JSErr (List JSVal × Bool) × Pipeline :=
  (derivedReturn p.resources p.initIsFn, p)

/-- Observable events of a single resource load, in program order. -/
inductive LEvent where
  | imageNew
  | initCalled
  | srcSet (src : String)
  | readStart
deriving DecidableEq, Repr

/-- Event trace of `loadUrl(url, init)`: `new Image()`, then
`init(img)` guarded by `typeof init === 'function'`, then `img.src = url`
inside the executor. -/
def loadUrlTrace (u : String) (initIsFn : Bool) : List LEvent :=
  [.imageNew] ++ (if initIsFn then [.initCalled] else []) ++ [.srcSet u]

/-- Event trace of `loadFile(file)`: `new Image()`, `readAsDataURL`, and on
`onloadend` the `setAndResolve` source assignment.  `init` is never
consulted (the function does not even take it).  On a non-file the read
throws before any source assignment. -/
def loadFileTrace (env : Env) : JSVal → List LEvent
  | .file f => [.imageNew, .readStart, .srcSet (env.fileDataUrl f)]
  | _ => [.imageNew]

/-- Event trace of one dispatched load (`identity` performs no events). -/
def loadResourceTrace (env : Env) (initIsFn : Bool) : JSVal → List LEvent
  | .str s => loadUrlTrace s initIsFn
  | .image _ => []
  | v => loadFileTrace env v

/-- Number of `init` invocations in a trace. -/
def initCount (tr : List LEvent) : Nat := (tr.filter (fun e => e = LEvent.initCalled)).length

/-- Concatenated event trace of `load(resources, init)`. -/
def loadTraceAll (env : Env) (initIsFn : Bool) (R : List JSVal) : List LEvent :=
  (R.map (loadResourceTrace env initIsFn)).flatten

/-- Is the value a string locator (a `RemoteReference`)? -/
def isStr : JSVal → Bool
  | .str _ => true
  | _ => false

/-- Does the event assign the image source? -/
def isSrcSet : LEvent → Bool
  | .srcSet _ => true
  | _ => false

/-- A `DrawResult`: the composed canvas returned by the draw function,
paired with the source canvases it consumed (`result(draw, sources)`). -/
structure DrawResult where
  canvas : Canvas
  sources : List Canvas
deriving DecidableEq, Repr

/-- Embedding of `result(draw, sources)`:
`{ canvas: draw.apply(null, sources), sources }`. -/
def mkResult (draw : List Canvas → Canvas) (sources : List Canvas) : DrawResult :=
  { canvas := draw sources, sources := sources }

/-- Embedding of the pipeline-level `release(result, pool)`: first
serialize the composed canvas with `mapToDataUrl` (the platform
`canvas.toDataURL()`, supplied as `ser`), then
`sources.forEach(pool.release)`; the data url is returned. -/
def releaseResult (ser : Canvas → String) (r : DrawResult) (p : PoolState) :
    String × PoolState :=
  let dataURL := ser r.canvas
  (dataURL, r.sources.foldl poolRelease p)

/-- A `Blob` as built by `new Blob([bytes], {type})`. -/
structure Blob where
  data : List Nat
  type : String
deriving DecidableEq, Repr

/-- Consume a literal character sequence from the front of the input
(the anchored literal parts of the regex `^data:([^;]+);base64,(.*)$`). -/
def chopLit : List Char → List Char → Option (List Char)
  | [], cs => some cs
  | _ :: _, [] => none
  | p :: ps, c :: cs => if c = p then chopLit ps cs else none

/-- JS `.` (without the `s` flag) matches anything but a line terminator. -/
def notLineTerm (c : Char) : Bool :=
  !(c = '\n' || c = '\r' || c.toNat = 0x2028 || c.toNat = 0x2029)

/-- Embedding of `split(dataURL)`, i.e. of
`/^data:([^;]+);base64,(.*)$/.exec(dataURL).splice(1)`: the literal
`data:`, a non-empty run of non-`;` characters (the content type), the
literal `;base64,`, and a line-terminator-free remainder (the payload).
`none` models the `TypeError` raised by calling `.splice` on the `null`
that `exec` returns when the regex does not match. -/
def splitCore (cs : List Char) : Option (List Char × List Char) :=
  (chopLit "data:".data cs).bind (fun rest =>
    if (rest.takeWhile (fun c => c ≠ ';')).isEmpty then none
    else
      (chopLit ";base64,".data
          (rest.drop (rest.takeWhile (fun c => c ≠ ';')).length)).bind
        (fun payload =>
          if payload.all notLineTerm then
            some (rest.takeWhile (fun c => c ≠ ';'), payload)
          else none))

/-- The `split` function lifted to Lean strings. -/
def split (s : String) : Option (String × String) :=
  (splitCore s.data).map (fun q => (String.mk q.1, String.mk q.2))

/-- The base64 alphabet value of a character, by its ASCII code
(`A`–`Z`, `a`–`z`, `0`–`9`, `+`, `/`). -/
def b64Val (c : Char) : Option Nat :=
  if 65 ≤ c.toNat ∧ c.toNat ≤ 90 then some (c.toNat - 65)
  else if 97 ≤ c.toNat ∧ c.toNat ≤ 122 then some (c.toNat - 97 + 26)
  else if 48 ≤ c.toNat ∧ c.toNat ≤ 57 then some (c.toNat - 48 + 52)
  else if c.toNat = 43 then some 62
  else if c.toNat = 47 then some 63
  else none

/-- Map every character to its base64 value; `none` on any character
outside the alphabet (`atob` raises `InvalidCharacterError`). -/
def sextets : List Char → Option (List Nat)
  | [] => some []
  | c :: cs =>
    match b64Val c with
    | none => none
    | some v =>
      match sextets cs with
      | none => none
      | some vs => some (v :: vs)

/-- Reassemble 6-bit groups into bytes: four sextets give three bytes, a
trailing pair gives one byte and a trailing triple gives two. -/
def b64Chunks : List Nat → List Nat
  | a :: b :: c :: d :: rest =>
    (a * 4 + b / 16) :: ((b % 16) * 16 + c / 4) :: ((c % 4) * 64 + d) :: b64Chunks rest
  | [a, b] => [a * 4 + b / 16]
  | [a, b, c] => [a * 4 + b / 16, (b % 16) * 16 + c / 4]
  | _ => []

/-- Strip at most two trailing `=` padding characters. -/
def dropPad (cs : List Char) : List Char :=
  match cs.reverse with
  | '=' :: '=' :: rest => rest.reverse
  | '=' :: rest => rest.reverse
  | _ => cs

/-- Padding normalization step of the platform `atob`: strip up to two
trailing `=` when the length is a multiple of four. -/
def b64core (cs : List Char) : List Char :=
  if cs.length % 4 = 0 then dropPad cs else cs

/-- Embedding of `decode(base64)`, i.e. of the platform `window.atob`:
strip padding when the length is a multiple of four, reject a remainder
of one, map the characters through the base64 alphabet and reassemble the
bytes.  The result is a JS binary string: one code unit per byte. -/
def atob (s : String) : Option JSString :=
  if (b64core s.data).length % 4 = 1 then none
  else
    match sextets (b64core s.data) with
    | none => none
    | some xs => some ⟨b64Chunks xs⟩

/-- Embedding of `mapToBlob`: `sequence(split, parts =>
[decode(parts[1]), parts[0]], blob => new Blob([uint8(blob[0])],
{type: blob[1]}))`. -/
def mapToBlob (s : String) : Option Blob :=
  match split s with
  | none => none
  | some (mime, payload) =>
    match atob payload with
    | none => none
    | some bin => some { data := uint8 bin, type := mime }

theorem clearCanvas_id (c : Canvas) : (clearCanvas c).id = c.id := rfl

/-- Claim C10: `uint8(s)` returns a byte array of `s.length` entries whose
`i`-th entry is `s.charCodeAt(i)` reduced modulo 2^8 (code units above 255
are truncated, not rejected). -/
theorem uint8_length_and_codes (s : JSString) :
    (uint8 s).length = s.len
    ∧ ∀ i, i < s.len → (uint8 s).getD i 0 = s.charCodeAt i % 256 := by
  constructor
  · simp [uint8]
  · intro i hi
    simp [uint8, List.getD_eq_getElem?_getD, List.getElem?_map, List.getElem?_range, hi]

theorem uint8_length_and_codes_witness :
    (uint8 ⟨[104, 300]⟩).length = 2 ∧ (uint8 ⟨[104, 300]⟩).getD 1 0 = 44 := by
  refine ⟨(uint8_length_and_codes ⟨[104, 300]⟩).1, ?_⟩
  have h := (uint8_length_and_codes ⟨[104, 300]⟩).2 1 (by decide)
  exact h

/-- Claim C8: after `clear()` (the body of `destroy()`) the pool length is
0, and a subsequent `pop()` returns a freshly allocated blank canvas while
the available count transitions 0 → 0. -/
theorem clear_then_pop (p : PoolState) :
    (clearPool p).canvases.length = 0
    ∧ (popPool (clearPool p)).1 = some (freshCanvas p.nextId)
    ∧ (popPool (clearPool p)).2.canvases.length = 0
    ∧ (freshCanvas p.nextId).content = [] := by
  refine ⟨rfl, ?_, ?_, rfl⟩ <;> simp [popPool, clearPool]

/-- Claim C7: `release(s)` erases the surface's in-bounds drawn content,
leaves `width`/`height` (and identity) unchanged, and puts the surface
back into the available set, growing it by one. -/
theorem release_clears_and_returns (p : PoolState) (c : Canvas) :
    (poolRelease p c).canvases.length = p.canvases.length + 1
    ∧ (clearCanvas c).width = c.width
    ∧ (clearCanvas c).height = c.height
    ∧ (clearCanvas c).id = c.id
    ∧ clearCanvas c ∈ (poolRelease p c).canvases
    ∧ ∀ px ∈ (clearCanvas c).content, ¬(px.x < c.width ∧ px.y < c.height) := by
  refine ⟨by simp [poolRelease], rfl, rfl, rfl, by simp [poolRelease], ?_⟩
  intro px hpx
  have h := List.of_mem_filter hpx
  simp at h
  omega

theorem release_clears_and_returns_witness :
    (poolRelease ⟨[], 5⟩ ⟨0, 2, 2, [⟨1, 1, 7⟩, ⟨5, 0, 3⟩]⟩).canvases.length = 1
    ∧ ¬((5 : Nat) < 2 ∧ (0 : Nat) < 2) := by
  refine ⟨(release_clears_and_returns ⟨[], 5⟩ ⟨0, 2, 2, [⟨1, 1, 7⟩, ⟨5, 0, 3⟩]⟩).1, ?_⟩
  exact (release_clears_and_returns ⟨[], 5⟩ ⟨0, 2, 2, [⟨1, 1, 7⟩, ⟨5, 0, 3⟩]⟩).2.2.2.2.2
    ⟨5, 0, 3⟩ (by decide)

/-- Claim C4 counterexample: a JS `Array` is none of the recognized
resource shapes, yet `getLoader` silently dispatches it to `loadFile`
instead of failing with an `UnsupportedResourceType` error — no error
path exists in `getLoader` at all. -/
theorem getLoader_array_silently_file :
    getLoader (JSVal.array []) = Loader.fileLoader
    ∧ specRecognizedShape (JSVal.array []) = false :=
  ⟨rfl, rfl⟩

/-- Claim C4 (amended): every input that is not a recognized resource
shape is silently dispatched to the file loader; the loader never fails
fast on an unrecognized shape. -/
theorem getLoader_unrecognized_defaults (v : JSVal)
    (h : specRecognizedShape v = false) : getLoader v = Loader.fileLoader := by
  cases v <;> simp_all [specRecognizedShape, getLoader]

theorem getLoader_unrecognized_defaults_witness :
    getLoader (JSVal.array [JSVal.str "x"]) = Loader.fileLoader :=
  getLoader_unrecognized_defaults (JSVal.array [JSVal.str "x"]) rfl

/-- Claim C3: the file binds `WatermarkConfig` but every chain method
returns through `Watermark.watermark(...)`; reading the unbound
identifier `Watermark` throws a `ReferenceError`, so no chain operation
ever returns a derived pipeline (the receiver itself is left unchanged —
the bodies assign nothing to `this`). -/
theorem chain_ops_throw_reference_error (p : Pipeline) (more : List JSVal) :
    dataUrlOp p = (.error (.referenceError "Watermark"), p)
    ∧ loadOp p more = (.error (.referenceError "Watermark"), p)
    ∧ renderOp p = (.error (.referenceError "Watermark"), p)
    ∧ blobOp p = (.error (.referenceError "Watermark"), p)
    ∧ imageOp p = (.error (.referenceError "Watermark"), p) := by
  have h : resolveIdent "Watermark" = .error (.referenceError "Watermark") := by rfl
  refine ⟨?_, ?_, ?_, ?_, ?_⟩ <;>
    simp [dataUrlOp, loadOp, renderOp, blobOp, imageOp, derivedReturn, h]

theorem initCount_append (a b : List LEvent) :
    initCount (a ++ b) = initCount a + initCount b := by
  simp [initCount, List.filter_append]

theorem initCount_loadResourceTrace (env : Env) (r : JSVal) :
    initCount (loadResourceTrace env true r) = if isStr r then 1 else 0 := by
  cases r <;> rfl

/-- Claim C5: with a function-valued initializer, `init` runs exactly once
per string (RemoteReference) resource — on the fresh image object, before
its `src` assignment — and never runs for a file handle or an
already-decoded image; over a whole resource list the number of `init`
invocations equals the number of string resources. -/
theorem init_called_only_for_remote (env : Env) (R : List JSVal)
    (s : String) (f : Nat) (i : Img) :
    initCount (loadTraceAll env true R) = (R.filter isStr).length
    ∧ initCount (loadResourceTrace env true (JSVal.str s)) = 1
    ∧ initCount (loadResourceTrace env true (JSVal.file f)) = 0
    ∧ initCount (loadResourceTrace env true (JSVal.image i)) = 0
    ∧ (loadResourceTrace env true (JSVal.str s)).findIdx (fun e => e = LEvent.initCalled)
        < (loadResourceTrace env true (JSVal.str s)).findIdx isSrcSet := by
  refine ⟨?_, rfl, rfl, rfl, ?_⟩
  · induction R with
    | nil => rfl
    | cons r rest ih =>
      have hcons : loadTraceAll env true (r :: rest)
          = loadResourceTrace env true r ++ loadTraceAll env true rest := by
        simp [loadTraceAll]
      rw [hcons, initCount_append, initCount_loadResourceTrace, ih]
      by_cases hr : isStr r
      · simp [List.filter_cons, hr]
        omega
      · simp [List.filter_cons, hr]
  · show (1 : Nat) < 2
    decide

theorem loadResource_val_valid (env : Env) (r : JSVal)
    (h : specRecognizedShape r = true) :
    (loadResource env r).val = .ok (imageOf env r) := by
  cases r <;> simp_all [loadResource, loadFileP, imageOf, specRecognizedShape]

theorem collect_map (f : JSVal → Prom Img) (g : JSVal → Img) (R : List JSVal)
    (h : ∀ r ∈ R, (f r).val = .ok (g r)) :
    collectVals (R.map f) = .ok (R.map g) := by
  induction R with
  | nil => rfl
  | cons r rest ih =>
    have hr := h r (List.mem_cons_self r rest)
    have hrest := ih (fun x hx => h x (List.mem_cons_of_mem r hx))
    simp [collectVals, hr, hrest]

/-- Claim C1: for a list of valid resources (string, file, or image), the
aggregate `load` resolves to the per-resource images in input order — the
result is the input-order `map` of the per-resource decode, so its length
is the input length — and the resolved value is unchanged under any
reassignment of per-resource completion times (`urlTime`/`fileTime`),
i.e. it does not depend on completion order. -/
theorem load_resolves_in_input_order (e1 e2 : Env) (R : List JSVal)
    (hd : e1.decodeUrl = e2.decodeUrl) (hf : e1.fileDataUrl = e2.fileDataUrl)
    (hv : ∀ r ∈ R, specRecognizedShape r = true) :
    (loadP e1 R).val = .ok (R.map (imageOf e1))
    ∧ (loadP e2 R).val = .ok (R.map (imageOf e1))
    ∧ (R.map (imageOf e1)).length = R.length := by
  have himg : ∀ r, imageOf e2 r = imageOf e1 r := by
    intro r
    cases r <;> simp [imageOf, hd, hf]
  have h1 : ∀ r ∈ R, (loadResource e1 r).val = .ok (imageOf e1 r) :=
    fun r hr => loadResource_val_valid e1 r (hv r hr)
  have h2 : ∀ r ∈ R, (loadResource e2 r).val = .ok (imageOf e1 r) := by
    intro r hr
    rw [← himg r]
    exact loadResource_val_valid e2 r (hv r hr)
  exact ⟨collect_map _ _ R h1, collect_map _ _ R h2, by simp⟩

/-- An environment with all loads completing at time 0. -/
def envT1 : Env :=
  { decodeUrl := fun s => s.length, fileDataUrl := fun _ => "f",
    urlTime := fun _ => 0, fileTime := fun _ => 0 }

/-- The same decoding behavior with reshuffled completion times. -/
def envT2 : Env := { envT1 with urlTime := fun _ => 7, fileTime := fun _ => 9 }

theorem load_resolves_in_input_order_witness :
    (loadP envT1 [JSVal.str "a", JSVal.image 3, JSVal.file 0]).val = .ok [1, 3, 1]
    ∧ (loadP envT2 [JSVal.str "a", JSVal.image 3, JSVal.file 0]).val = .ok [1, 3, 1] := by
  have h := load_resolves_in_input_order envT1 envT2
    [JSVal.str "a", JSVal.image 3, JSVal.file 0] rfl rfl (by decide)
  exact ⟨h.1, h.2.1⟩

/-- Claim C2 counterexample, at concrete scenario 3: under `envT1`,
`watermark(['a.jpg']).load(['b.jpg'])`'s derived promise does not resolve
to two images with `a.jpg`'s first — it rejects, because the resolved
image list `[imgA]` is wrapped as a single resource by
`[resource].concat(resources)` and dispatched to `loadFile`, whose
`readAsDataURL` throws on an `Array`. -/
theorem chain_load_scenario3_rejects :
    (chainLoadPromise envT1 (loadP envT1 [JSVal.str "a.jpg"]) [JSVal.str "b.jpg"]).val
      = .error .typeError := by
  rfl

/-- Claim C2 (amended): for every pipeline whose promise resolved to a
list of images, the chain `load` wraps that whole list as one resource in
front of the new ones and dispatches it to the file loader, so the
derived promise always rejects with the platform `TypeError` — the
already-resolved images are not preserved and no `n + |moreResources|`
image list is produced. -/
theorem chain_load_on_image_list_rejects (env : Env) (prev : Prom (List Img))
    (imgs : List Img) (more : List JSVal) (h : prev.val = .ok imgs) :
    (chainLoadPromise env prev more).val = .error .typeError := by
  unfold chainLoadPromise
  rw [h]
  have harr : (loadResource env (imagesAsJSVal imgs)).val = .error .typeError := rfl
  simp [loadP, promiseAll, collectVals, harr]

theorem chain_load_on_image_list_rejects_witness :
    (chainLoadPromise envT1 ⟨0, .ok [1, 2]⟩ []).val = .error .typeError :=
  chain_load_on_image_list_rejects envT1 ⟨0, .ok [1, 2]⟩ [1, 2] [] rfl

theorem foldl_poolRelease_canvases :
    ∀ (sources : List Canvas) (p : PoolState),
      (sources.foldl poolRelease p).canvases = p.canvases ++ sources.map clearCanvas
  | [], p => by simp
  | c :: rest, p => by
    have ih := foldl_poolRelease_canvases rest (poolRelease p c)
    rw [List.foldl_cons, ih]
    simp [poolRelease]

/-- Claim C6: the terminal `release(result, pool)` first serializes the
composed canvas (its pre-release content) to the data url it returns,
then releases exactly the source canvases back to the pool — the
available count grows by the number of sources — and performs no release
of the composed canvas itself unless it is one of the sources. -/
theorem release_result_spec (ser : Canvas → String) (r : DrawResult) (p : PoolState) :
    (releaseResult ser r p).1 = ser r.canvas
    ∧ (releaseResult ser r p).2.canvases = p.canvases ++ r.sources.map clearCanvas
    ∧ (releaseResult ser r p).2.canvases.length
        = p.canvases.length + r.sources.length
    ∧ (r.canvas.id ∉ r.sources.map Canvas.id →
        r.canvas.id ∉
          (((releaseResult ser r p).2.canvases.drop p.canvases.length).map Canvas.id)) := by
  have hc : (releaseResult ser r p).2.canvases
      = p.canvases ++ r.sources.map clearCanvas := foldl_poolRelease_canvases r.sources p
  refine ⟨rfl, hc, ?_, ?_⟩
  · rw [hc]
    simp
  · intro h
    rw [hc, List.drop_left]
    simpa [List.map_map, Function.comp_def, clearCanvas_id] using h

theorem release_result_spec_witness :
    (releaseResult (fun _ => "u") ⟨⟨0, 2, 2, [⟨0, 0, 1⟩]⟩, [⟨1, 1, 1, []⟩]⟩ ⟨[], 5⟩).1 = "u"
    ∧ (0 : Nat) ∉
        ((((releaseResult (fun _ => "u") ⟨⟨0, 2, 2, [⟨0, 0, 1⟩]⟩, [⟨1, 1, 1, []⟩]⟩
          ⟨[], 5⟩).2.canvases.drop 0).map Canvas.id)) := by
  have h := release_result_spec (fun _ => "u")
    ⟨⟨0, 2, 2, [⟨0, 0, 1⟩]⟩, [⟨1, 1, 1, []⟩]⟩ ⟨[], 5⟩
  exact ⟨h.1, h.2.2.2 (by decide)⟩

theorem chopLit_append (lit rest : List Char) : chopLit lit (lit ++ rest) = some rest := by
  induction lit with
  | nil => rfl
  | cons c cs ih => simp [chopLit, ih]

theorem takeWhile_no_semi (m t : List Char) (hm : ∀ c ∈ m, c ≠ ';') :
    (m ++ ';' :: t).takeWhile (fun c => c ≠ ';') = m := by
  induction m with
  | nil => simp
  | cons c cs ih =>
    have hc : c ≠ ';' := hm c (by simp)
    have ihh := ih (fun x hx => hm x (by simp [hx]))
    rw [List.cons_append, List.takeWhile_cons_of_pos (by simp [hc]), ihh]

theorem splitCore_of_parts (m p : List Char) (hm : m ≠ [])
    (hsemi : ∀ c ∈ m, c ≠ ';') (hp : p.all notLineTerm = true) :
    splitCore ("data:".data ++ (m ++ (";base64,".data ++ p))) = some (m, p) := by
  have h1 : chopLit "data:".data ("data:".data ++ (m ++ (";base64,".data ++ p)))
      = some (m ++ (";base64,".data ++ p)) := chopLit_append _ _
  have h2 : (m ++ (";base64,".data ++ p)).takeWhile (fun c => c ≠ ';') = m := by
    have hsb : (m ++ (";base64,".data ++ p)) = m ++ ';' :: ("base64,".data ++ p) := rfl
    rw [hsb]
    exact takeWhile_no_semi m _ hsemi
  have h3 : (m ++ (";base64,".data ++ p)).drop m.length = ";base64,".data ++ p :=
    List.drop_left m _
  have h4 : chopLit ";base64,".data (";base64,".data ++ p) = some p := chopLit_append _ _
  have hmE : (m : List Char).isEmpty = false := List.isEmpty_eq_false.mpr hm
  simp only [splitCore]
  rw [h1]
  simp only [Option.some_bind]
  rw [h2, hmE]
  simp only [Bool.false_eq_true, if_false]
  rw [h3, h4]
  simp only [Option.some_bind]
  rw [hp]
  simp only [if_true]

theorem split_of_parts (m p : String) (hm : m.data ≠ [])
    (hsemi : ∀ c ∈ m.data, c ≠ ';') (hp : p.data.all notLineTerm = true) :
    split ("data:" ++ m ++ (";base64," ++ p)) = some (m, p) := by
  have hd : ("data:" ++ m ++ (";base64," ++ p)).data
      = "data:".data ++ (m.data ++ (";base64,".data ++ p.data)) := by
    simp [String.data_append]
  unfold split
  rw [hd, splitCore_of_parts m.data p.data hm hsemi hp]
  rfl

theorem b64Val_lt (c : Char) (v : Nat) (h : b64Val c = some v) : v < 64 := by
  unfold b64Val at h
  split_ifs at h with h1 h2 h3 h4 h5 <;> simp_all <;> omega

theorem sextets_bound : ∀ (cs : List Char) (xs : List Nat),
    sextets cs = some xs → ∀ x ∈ xs, x < 64
  | [], xs, h => by
    have h0 : (some ([] : List Nat)) = some xs := h
    cases h0
    simp
  | c :: cs, xs, h => by
    simp only [sextets] at h
    cases hbc : b64Val c with
    | none => rw [hbc] at h; simp at h
    | some v =>
      rw [hbc] at h
      cases hrec : sextets cs with
      | none => rw [hrec] at h; simp at h
      | some vs =>
        rw [hrec] at h
        simp at h
        intro x hx
        rw [← h] at hx
        rcases List.mem_cons.mp hx with rfl | hx2
        · exact b64Val_lt c x hbc
        · exact sextets_bound cs vs hrec x hx2

theorem b64Chunks_bound : ∀ (xs : List Nat), (∀ x ∈ xs, x < 64) →
    ∀ b ∈ b64Chunks xs, b < 256
  | [], _, b, hb => by simp [b64Chunks] at hb
  | [a], _, b, hb => by simp [b64Chunks] at hb
  | [a, x], h, b, hb => by
    have ha : a < 64 := h a (by simp)
    have hx : x < 64 := h x (by simp)
    simp [b64Chunks] at hb
    omega
  | [a, x, c], h, b, hb => by
    have ha : a < 64 := h a (by simp)
    have hx : x < 64 := h x (by simp)
    have hc : c < 64 := h c (by simp)
    simp [b64Chunks] at hb
    rcases hb with rfl | rfl <;> omega
  | a :: x :: c :: d :: rest, h, b, hb => by
    have ha : a < 64 := h a (by simp)
    have hx : x < 64 := h x (by simp)
    have hc : c < 64 := h c (by simp)
    have hd : d < 64 := h d (by simp)
    have hrest : ∀ y ∈ rest, y < 64 := fun y hy => h y (by simp [hy])
    simp [b64Chunks] at hb
    rcases hb with rfl | rfl | rfl | hmem
    · omega
    · omega
    · omega
    · exact b64Chunks_bound rest hrest b hmem

theorem atob_bound (s : String) (bin : JSString) (h : atob s = some bin) :
    ∀ u ∈ bin.units, u < 256 := by
  unfold atob at h
  split at h
  · simp at h
  · split at h
    · simp at h
    · next xs heq =>
      have hx := sextets_bound _ xs heq
      have hb := b64Chunks_bound xs hx
      simp at h
      rw [← h]
      exact hb

theorem range_map_getD (l : List Nat) :
    (List.range l.length).map (fun i => l.getD i 0 % 256) = l.map (fun u => u % 256) := by
  induction l with
  | nil => rfl
  | cons u t ih =>
    rw [List.length_cons, List.range_succ_eq_map, List.map_cons, List.map_map]
    simp only [List.getD_cons_zero, Function.comp_def, List.getD_cons_succ]
    rw [ih, List.map_cons]

theorem map_mod_id (l : List Nat) (h : ∀ u ∈ l, u < 256) :
    l.map (fun u => u % 256) = l := by
  induction l with
  | nil => rfl
  | cons u t ih =>
    have hu : u % 256 = u := Nat.mod_eq_of_lt (h u (by simp))
    have iht := ih (fun x hx => h x (by simp [hx]))
    simp [hu, iht]

theorem uint8_bytes_id (l : List Nat) (h : ∀ u ∈ l, u < 256) : uint8 ⟨l⟩ = l := by
  show (List.range l.length).map (fun i => l.getD i 0 % 256) = l
  rw [range_map_getD, map_mod_id l h]

/-- Claim C9: for a data url `data:<mime>;base64,<payload>` (non-empty
`;`-free mime, line-terminator-free payload accepted by `atob`),
`mapToBlob` produces a blob whose `type` is exactly `<mime>` and whose
bytes are exactly the base64 decoding of `<payload>` — `uint8` over the
binary string returned by `decode` reproduces its bytes unchanged. -/
theorem mapToBlob_preserves_mime_and_bytes (m p : String) (bin : JSString)
    (hm : m.data ≠ []) (hsemi : ∀ c ∈ m.data, c ≠ ';')
    (hp : p.data.all notLineTerm = true) (hb : atob p = some bin) :
    mapToBlob ("data:" ++ m ++ (";base64," ++ p))
      = some { data := bin.units, type := m } := by
  have hsplit := split_of_parts m p hm hsemi hp
  have hid : uint8 bin = bin.units := uint8_bytes_id bin.units (atob_bound p bin hb)
  simp [mapToBlob, hsplit, hb, hid]

theorem mapToBlob_preserves_mime_and_bytes_witness :
    mapToBlob ("data:" ++ "image/png" ++ (";base64," ++ "TWFu"))
      = some { data := [77, 97, 110], type := "image/png" } :=
  mapToBlob_preserves_mime_and_bytes "image/png" "TWFu" ⟨[77, 97, 110]⟩
    (by decide) (by decide) (by decide) (by decide)
